import Mathlib

/-!
Verification development for the DTSynchronizer reasoning core.

This file gives a shallow embedding, in Lean 4, of the situation-reasoning
core of the DTSynchronizer C++ sources:

* `SituationReasoner.cc` — the per-cycle pipeline `reason` (seeding,
  belief propagation, backward and downward retrospection, state
  combination, Bayesian refinement, decay) and its helpers
  `determineCauseState`, `determineChildState`, `combineStates`,
  `checkState`;
* `SituationGraph.cc` — the loader's edge-set construction and the
  reachability-matrix algorithm `boolMatrixPower` /
  `buildReachabilityMatrix`;
* `BNInferenceEngine.cc` — the CPT-construction dispatch
  `constructCPT`, the belief-update pass `calculateBeliefs`, and the
  exception plumbing of `BNInferenceEngine::reason`;
* `OperationGenerator.cc` — `generateOperations`.

C++ `std::map` iteration is modelled by folding over key-ascending lists;
`simtime_t` and `double` are modelled as `ℚ`; machine integers stay
within range in every scenario considered, so `Int`/`Nat` are used
directly.  Worklist loops of the source whose termination is not
syntactically evident are given an explicit fuel argument; all general
theorems below hold for every fuel value, and concrete executions use a
fuel large enough to reproduce the source's trace exactly.
-/

namespace DTS

abbrev Long := Int

/-- `SituationInstance::State` from `SituationInstance.h`. -/
inductive SState where
  | UNTRIGGERED
  | TRIGGERED
  | UNDETERMINED
deriving DecidableEq, Repr

/-- `SituationInstance::Type` from `SituationInstance.h`. -/
inductive SType where
  | NORMAL
  | HIDDEN
deriving DecidableEq, Repr

/-- `SituationRelation::Type` from `SituationRelation.h`. -/
inductive RType where
  | V
  | H
deriving DecidableEq, Repr

/-- `SituationRelation::Relation` from `SituationRelation.h`. -/
inductive RLogic where
  | SOLE
  | AND
  | OR
deriving DecidableEq, Repr

/-- `SituationRelation` from `SituationRelation.h`. -/
structure SituationRelation where
  src : Long
  dest : Long
  rtype : RType
  logic : RLogic
  weight : ℚ
deriving DecidableEq, Repr

/-- `SituationNode` (fields per `SituationNode.h`, plus the dense `index`
written by `SituationGraph::loadModel`). -/
structure SituationNode where
  id : Long
  index : Nat
  threshold : ℚ
  causes : List Long
  evidences : List Long
deriving DecidableEq, Repr

/-- `SituationInstance` from `SituationInstance.h` (the fields the
reasoning core reads or writes). -/
structure SituationInstance where
  id : Long
  counter : Int
  stateBuffer : List SState
  duration : ℚ
  cycle : ℚ
  ty : SType
  state : SState
  next_start : ℚ
  beliefValue : ℚ
  beliefUpdated : Bool
deriving DecidableEq, Repr

/-- The default-constructed `SituationInstance` (`SituationInstance.h`,
default constructor). -/
def defaultInstance : SituationInstance :=
  { id := -1, counter := 0, stateBuffer := [], duration := 0, cycle := 0,
    ty := SType.NORMAL, state := SState.UNTRIGGERED, next_start := 0,
    beliefValue := 0, beliefUpdated := false }

/-- The parameterised `SituationInstance` constructor
(`SituationInstance.h` lines 101-106).  Note that the member initialiser
list writes `type(NORMAL)`, ignoring the `type` parameter. -/
def mkSituationInstance (id : Long) (ty : SType) (duration : ℚ) (cycle : ℚ) :
    SituationInstance :=
  let _ := ty
  { id := id, counter := 0, stateBuffer := [], duration := duration,
    cycle := cycle, ty := SType.NORMAL, state := SState.UNTRIGGERED,
    next_start := 0, beliefValue := 0, beliefUpdated := false }

/-- `SituationInstance::updateBelief`. -/
def updateBelief (b : ℚ) (i : SituationInstance) : SituationInstance :=
  { i with beliefValue := b, beliefUpdated := true }

/-- `SituationInstance::addStateToBuffer`. -/
def addStateToBuffer (s : SState) (i : SituationInstance) : SituationInstance :=
  { i with stateBuffer := i.stateBuffer ++ [s] }

/-- The instance store `std::map<long, SituationInstance>` as a total
lookup function; ids outside the store map to the default-constructed
instance, matching `operator[]`. -/
abbrev IMap := Long → SituationInstance

/-- Pointwise update of the instance store at one id. -/
def updI (m : IMap) (id : Long) (f : SituationInstance → SituationInstance) :
    IMap :=
  fun x => if x = id then f (m x) else m x

theorem updI_same (m : IMap) (id : Long) (f : SituationInstance → SituationInstance) :
    updI m id f id = f (m id) := by
  simp [updI]

theorem updI_other (m : IMap) (id x : Long) (f : SituationInstance → SituationInstance)
    (h : x ≠ id) : updI m id f x = m x := by
  simp [updI, h]

/-! ## State combination (`SituationReasoner::combineStates`) -/

/-- One step of the state-combination fold: the if-chain in the loop body
of `SituationReasoner::combineStates` (SituationReasoner.cc lines
579-604). -/
def combineStep (tr cur : SState) : SState :=
  if tr = SState.TRIGGERED ∨ cur = SState.TRIGGERED then SState.TRIGGERED
  else if tr = SState.UNDETERMINED ∧ cur = SState.UNDETERMINED then
    SState.UNDETERMINED
  else if (tr = SState.UNDETERMINED ∧ cur = SState.UNTRIGGERED) ∨
      (tr = SState.UNTRIGGERED ∧ cur = SState.UNDETERMINED) then
    SState.UNTRIGGERED
  else tr

/-- `SituationReasoner::combineStates`: an empty buffer yields
`UNTRIGGERED`; otherwise the first element seeds a left fold with
`combineStep`. -/
def combineStates (buf : List SState) : SState :=
  match buf with
  | [] => SState.UNTRIGGERED
  | h :: t => t.foldl combineStep h

theorem combineStep_undetermined_left (s : SState) :
    combineStep SState.UNDETERMINED s = s := by
  cases s <;> rfl

theorem combineStep_comm (a b : SState) : combineStep a b = combineStep b a := by
  cases a <;> cases b <;> rfl

theorem combineStep_assoc (a b c : SState) :
    combineStep (combineStep a b) c = combineStep a (combineStep b c) := by
  cases a <;> cases b <;> cases c <;> rfl

theorem combineStep_left_comm (a b c : SState) :
    combineStep (combineStep a b) c = combineStep (combineStep a c) b := by
  cases a <;> cases b <;> cases c <;> rfl

theorem foldl_combineStep_perm {l₁ l₂ : List SState} (h : l₁.Perm l₂) :
    ∀ a : SState, l₁.foldl combineStep a = l₂.foldl combineStep a := by
  induction h with
  | nil => intro a; rfl
  | cons x _ ih =>
      intro a
      simp only [List.foldl_cons]
      exact ih (combineStep a x)
  | swap x y l =>
      intro a
      simp only [List.foldl_cons]
      rw [combineStep_left_comm]
  | trans _ _ ih₁ ih₂ =>
      intro a
      exact (ih₁ a).trans (ih₂ a)

theorem combineStates_eq_foldl (buf : List SState) (hne : buf ≠ []) :
    combineStates buf = buf.foldl combineStep SState.UNDETERMINED := by
  match buf with
  | [] => exact absurd rfl hne
  | h :: t =>
      simp only [combineStates, List.foldl_cons, combineStep_undetermined_left]

/-- C9: the state-combination operator of P6 is commutative and
associative, and therefore the left fold `combineStates` is invariant
under permutation of the state buffer (in particular order-independent
on every non-empty buffer). -/
theorem combineStates_comm_assoc_perm_invariant :
    (∀ a b : SState, combineStep a b = combineStep b a) ∧
    (∀ a b c : SState,
      combineStep (combineStep a b) c = combineStep a (combineStep b c)) ∧
    (∀ l₁ l₂ : List SState, l₁.Perm l₂ → combineStates l₁ = combineStates l₂) := by
  refine ⟨combineStep_comm, combineStep_assoc, ?_⟩
  intro l₁ l₂ h
  rcases l₁ with _ | ⟨a, t⟩
  · rcases l₂ with _ | ⟨b, u⟩
    · rfl
    · exact absurd h.symm (by simp [List.Perm])
  · have hne₁ : (a :: t) ≠ ([] : List SState) := by simp
    have hne₂ : l₂ ≠ [] := by
      intro hnil
      subst hnil
      exact absurd h (by simp)
    rw [combineStates_eq_foldl _ hne₁, combineStates_eq_foldl _ hne₂]
    exact foldl_combineStep_perm h SState.UNDETERMINED

/-- Witness for C9's permutation part at a concrete pair of buffers. -/
theorem combineStates_comm_assoc_perm_invariant_witness :
    combineStates [SState.UNDETERMINED, SState.TRIGGERED, SState.UNTRIGGERED] =
      combineStates [SState.UNTRIGGERED, SState.UNDETERMINED, SState.TRIGGERED] :=
  combineStates_comm_assoc_perm_invariant.2.2 _ _ (by decide)

/-! ## Situation graph (`SituationGraph.h` / `SituationGraph.cc`) -/

/-- The loaded situation graph.  `layers` holds, for each layer, the node
ids in the order produced by `DirectedGraph::topo_sort` (the traversal
order used by every pass of the reasoner); `nodes` is the `situationMap`
lookup; `relationList` is `relationMap` as a key-ascending association
list (`std::map` iterates keys in ascending lexicographic order);
`nodeIds` is the ascending key list of `situationMap`. -/
structure SituationGraph where
  layers : List (List Long)
  nodes : Long → SituationNode
  relationList : List ((Long × Long) × SituationRelation)
  nodeIds : List Long

/-- `SituationGraph::getRelation`. -/
def getRelation (g : SituationGraph) (src dest : Long) : Option SituationRelation :=
  (g.relationList.find? (fun p => p.1 = (src, dest))).map (·.2)

/-- `SituationGraph::getOutgoingRelations`: the relations whose key starts
at `nodeId`, as a `dest ↦ relation` association list (destination
ascending, matching the `std::map` it builds). -/
def getOutgoingRelations (g : SituationGraph) (nodeId : Long) :
    List (Long × SituationRelation) :=
  (g.relationList.filter (fun p => p.1.1 = nodeId)).map (fun p => (p.1.2, p.2))

/-- `SituationGraph::modelHeight`. -/
def modelHeight (g : SituationGraph) : Nat := g.layers.length

/-! ## Reachability matrix (`SituationGraph.cc` lines 83-154) -/

/-- Boolean square matrices, indexed by the dense node index. -/
abbrev BMat := Nat → Nat → Bool

/-- One in-place multiplication pass of `boolMatrixPower`
(SituationGraph.cc lines 86-100).  The C++ function receives the power
`n` and uses the same `n` as the loop bound for rows, columns and the
inner sum, so only the top-left `n × n` block is updated; entries outside
that block keep their current value. -/
def matMulStep (bound : Nat) (mat t : BMat) : BMat := fun i j =>
  if i < bound ∧ j < bound then
    (List.range bound).any (fun m => t i m && mat m j)
  else t i j

/-- `boolMatrixPower(mat, n)`: starting from `mat`, apply `n - 1`
in-place multiplication passes, each with block bound `n`. -/
def boolMatrixPower (mat : BMat) (n : Nat) : BMat :=
  (matMulStep n mat)^[n - 1] mat

/-- `SituationGraph::buildReachabilityMatrix`'s accumulation loop
(SituationGraph.cc lines 148-153): the union of `boolMatrixPower(adj, k)`
for `k = 1 .. size`. -/
def buildReachabilityMatrix (size : Nat) (adj : BMat) : BMat := fun i j =>
  (List.range' 1 size).any (fun k => boolMatrixPower adj k i j)

theorem matMulStep_sound {R : Nat → Nat → Prop} (bound : Nat) (mat t : BMat)
    (hmat : ∀ i j, mat i j = true → R i j)
    (ht : ∀ i j, t i j = true → Relation.TransGen R i j) :
    ∀ i j, matMulStep bound mat t i j = true → Relation.TransGen R i j := by
  intro i j h
  unfold matMulStep at h
  split at h
  · rcases List.any_eq_true.mp h with ⟨m, _, hm⟩
    simp only [Bool.and_eq_true] at hm
    exact Relation.TransGen.tail (ht i m hm.1) (hmat m j hm.2)
  · exact ht i j h

theorem boolMatrixPower_sound {R : Nat → Nat → Prop} (mat : BMat) (n : Nat)
    (hmat : ∀ i j, mat i j = true → R i j) :
    ∀ i j, boolMatrixPower mat n i j = true → Relation.TransGen R i j := by
  unfold boolMatrixPower
  generalize n - 1 = k
  induction k with
  | zero =>
      intro i j h
      exact Relation.TransGen.single (hmat i j h)
  | succ k ih =>
      rw [Function.iterate_succ_apply']
      exact matMulStep_sound n mat _ hmat ih

theorem boolMatrixPower_one (mat : BMat) : boolMatrixPower mat 1 = mat := rfl

/-- Every true entry of the reachability matrix corresponds to a directed
walk over the adjacency relation. -/
theorem buildReachabilityMatrix_sound {R : Nat → Nat → Prop} (size : Nat)
    (adj : BMat) (hadj : ∀ i j, adj i j = true → R i j) :
    ∀ i j, buildReachabilityMatrix size adj i j = true →
      Relation.TransGen R i j := by
  intro i j h
  rcases List.any_eq_true.mp h with ⟨k, _, hk⟩
  exact boolMatrixPower_sound adj k hadj i j hk

/-- The reachability matrix contains the adjacency matrix (the `k = 1`
summand is the adjacency matrix itself). -/
theorem buildReachabilityMatrix_contains_adj (size : Nat) (adj : BMat)
    (hsize : 1 ≤ size) :
    ∀ i j, adj i j = true → buildReachabilityMatrix size adj i j = true := by
  intro i j h
  unfold buildReachabilityMatrix
  refine List.any_eq_true.mpr ⟨1, ?_, ?_⟩
  · simp only [List.mem_range'_1]
    omega
  · rw [boolMatrixPower_one]
    exact h

/-! ## The loader's edge set (`SituationGraph::loadModel`, lines 156-287) -/

/-- One `Predecessors` entry of a JSON node object. -/
structure NodePred where
  id : Long
  logic : RLogic
  weight : ℚ
deriving DecidableEq, Repr

/-- One `Children` entry of a JSON node object. -/
structure NodeChild where
  id : Long
  logic : RLogic
  weight : ℚ
deriving DecidableEq, Repr

/-- One node object of the JSON model (layers flattened in declaration
order, which is also the order in which `loadModel` assigns the dense
`index`). -/
structure NodeDecl where
  id : Long
  duration : ℚ
  cycle : Option ℚ
  ty : SType
  threshold : ℚ
  preds : List NodePred
  children : List NodeChild
deriving DecidableEq, Repr

/-- The edge set `loadModel` feeds to `buildReachabilityMatrix`
(SituationGraph.cc lines 195-255): for every `Predecessors` entry `p` of
node `n` the Horizontal edge `(p, n)`; for every `Children` entry `c` of
node `n` the Vertical edge `(n, c)` AND the reversed edge `(c, n)`
(lines 251-254 insert `reid = (dest, src)` as well). -/
def loadEdges (decls : List NodeDecl) : List (Long × Long) :=
  decls.foldl (fun acc n =>
    (acc ++ n.preds.map (fun p => (p.id, n.id))) ++
      n.children.foldl (fun a c => a ++ [(n.id, c.id), (c.id, n.id)]) []) []

/-- The edge set named by the spec and the claim: exactly the Horizontal
relations `p → n` plus the Vertical relations `n → c`, with no reversed
edges.  Stated from the spec's words, for comparison with `loadEdges`. -/
def specEdges (decls : List NodeDecl) : List (Long × Long) :=
  decls.foldl (fun acc n =>
    (acc ++ n.preds.map (fun p => (p.id, n.id))) ++
      n.children.map (fun c => (n.id, c.id))) []

/-- The vertex set collected by `loadModel`, in declaration order. -/
def modelVertices (decls : List NodeDecl) : List Long := decls.map (·.id)

/-- The dense index `loadModel` assigns to each node id. -/
def modelIndex (decls : List NodeDecl) (id : Long) : Nat :=
  (modelVertices decls).indexOf id

/-- The adjacency matrix built by `buildReachabilityMatrix`
(SituationGraph.cc lines 129-143): `adj[index(s)][index(d)]` is set for
every ordered pair of distinct vertices whose edge id is in the edge
set. -/
def adjMatrixOf (decls : List NodeDecl) (edges : List (Long × Long)) : BMat :=
  fun i j =>
    (modelVertices decls).any (fun s =>
      (modelVertices decls).any (fun d =>
        decide (s ≠ d) && edges.contains (s, d) &&
          decide (modelIndex decls s = i) && decide (modelIndex decls d = j)))

/-- `SituationGraph::isReachable` after `loadModel` on the given
declarations. -/
def isReachableM (decls : List NodeDecl) (src dest : Long) : Bool :=
  buildReachabilityMatrix (modelVertices decls).length
    (adjMatrixOf decls (loadEdges decls))
    (modelIndex decls src) (modelIndex decls dest)

/-- A two-node model: node 0 (top layer) with the single Vertical child 1
(weight 9/10); node 1 (bottom layer) with no relations. -/
def declsV : List NodeDecl :=
  [{ id := 0, duration := 10, cycle := none, ty := SType.NORMAL,
     threshold := 1/2, preds := [],
     children := [{ id := 1, logic := RLogic.SOLE, weight := 9/10 }] },
   { id := 1, duration := 10, cycle := none, ty := SType.NORMAL,
     threshold := 1/2, preds := [], children := [] }]

/-- C3 counterexample: in the two-node model `declsV`, whose only relation
is the Vertical edge `0 → 1`, `is_reachable(1, 0)` is true after
`loadModel` although the combined graph of Horizontal plus Vertical
relations contains no directed path from 1 to 0 — the loader also inserts
the reversed Vertical edge `(1, 0)` into the edge set fed to
`buildReachabilityMatrix`. -/
theorem isReachable_no_transitive_closure_counterexample :
    isReachableM declsV 1 0 = true ∧
      ¬ Relation.TransGen (fun a b : Long => (a, b) ∈ specEdges declsV) 1 0 := by
  constructor
  · decide
  · intro h
    have hs : specEdges declsV = [(0, 1)] := by decide
    cases h with
    | single h₁ => revert h₁; decide
    | tail _ h₂ =>
        rw [hs] at h₂
        simp at h₂

/-- C3 amended: after `loadModel`, the edge set over which the
reachability matrix is computed is the Horizontal relations plus the
Vertical relations plus the reverse of every Vertical edge (`loadEdges`),
and `is_reachable` is sound but not complete for that edge set: it
contains every loaded edge between distinct vertices, and every true
entry of the matrix corresponds to a directed walk over the adjacency
relation; it is not the transitive closure of the Horizontal-plus-Vertical
edge relation of the claim. -/
theorem isReachable_contains_loaded_edges_and_is_sound :
    (∀ (decls : List NodeDecl) (a b : Long),
      (a, b) ∈ loadEdges decls → a ∈ modelVertices decls →
      b ∈ modelVertices decls → a ≠ b → isReachableM decls a b = true) ∧
    (∀ (n : Nat) (adj : BMat) (i j : Nat),
      buildReachabilityMatrix n adj i j = true →
      Relation.TransGen (fun p q => adj p q = true) i j) := by
  constructor
  · intro decls a b hedge ha hb hne
    have hpos : 1 ≤ (modelVertices decls).length :=
      List.length_pos.mpr (List.ne_nil_of_mem ha)
    refine buildReachabilityMatrix_contains_adj _ _ hpos _ _ ?_
    unfold adjMatrixOf
    refine List.any_eq_true.mpr ⟨a, ha, ?_⟩
    refine List.any_eq_true.mpr ⟨b, hb, ?_⟩
    simp [hne, hedge]
  · intro n adj i j h
    exact buildReachabilityMatrix_sound n adj (fun _ _ hh => hh) i j h

/-- Witness for C3's amended theorem: the loaded (reversed Vertical) edge
`(1, 0)` of `declsV` is reachable, and soundness applied to that entry
yields a walk over the loaded adjacency. -/
theorem isReachable_contains_loaded_edges_and_is_sound_witness :
    isReachableM declsV 1 0 = true ∧
      Relation.TransGen
        (fun p q =>
          adjMatrixOf declsV (loadEdges declsV) p q = true) 1 0 := by
  have hmain := isReachable_contains_loaded_edges_and_is_sound
  have h₁ : isReachableM declsV 1 0 = true :=
    hmain.1 declsV 1 0 (by decide) (by decide) (by decide) (by decide)
  exact ⟨h₁, hmain.2 (modelVertices declsV).length
    (adjMatrixOf declsV (loadEdges declsV)) _ _ h₁⟩

/-! ## Situation evolution store (`SituationEvolution.cc`) -/

/-- `SituationEvolution::addInstance` (SituationEvolution.cc lines 30-34):
construct a `SituationInstance` with the parameterised constructor and
assign it into the store. -/
def addInstance (m : IMap) (id : Long) (ty : SType) (duration cycle : ℚ) :
    IMap :=
  updI m id (fun _ => mkSituationInstance id ty duration cycle)

/-! ## Situation reasoner (`SituationReasoner.cc`) -/

/-- The bottom-layer trigger body (SituationReasoner.cc lines 626-628 and
673-675): set the instance to `TRIGGERED`, increment its counter and set
`next_start` to the current time. -/
def seedTrigger (current : ℚ) (m : IMap) (b : Long) : IMap :=
  updI m b (fun i =>
    { i with state := SState.TRIGGERED, counter := i.counter + 1,
             next_start := current })

/-- The threshold pass at the end of each `beliefPropagation` node
(SituationReasoner.cc lines 166-179): for non-bottom layers only,
compare the belief with the threshold, set the state and append it to
the buffer. -/
def beliefThresholdPass (numLayers li : Nat) (threshold : ℚ) (nid : Long)
    (m1 : IMap) : IMap :=
  if li < numLayers - 1 then
    updI m1 nid (fun i =>
      if i.beliefValue > threshold then
        addStateToBuffer SState.TRIGGERED { i with state := SState.TRIGGERED }
      else
        addStateToBuffer SState.UNTRIGGERED
          { i with state := SState.UNTRIGGERED })
  else m1

/-- The pure belief computation of `SituationReasoner::beliefPropagation`
for one hypothesis node: `none` when the source performs no
`updateBelief` call (single evidence whose relation is not `SOLE`, or
multiple evidences of mixed relation kinds). -/
def beliefPropBelief (g : SituationGraph) (m : IMap) (nid : Long)
    (evidenceNodes : List Long) : Option ℚ :=
  if evidenceNodes.isEmpty then some (mkRat 4 5)
  else if evidenceNodes.length = 1 then
    let e := evidenceNodes.headD 0
    match getRelation g e nid with
    | some r =>
        if r.logic = RLogic.SOLE then some ((m e).beliefValue * r.weight)
        else none
    | none => none
  else
    let allOr := evidenceNodes.all (fun e =>
      match getRelation g e nid with
      | some r => r.logic == RLogic.OR
      | none => true)
    let allAnd := evidenceNodes.all (fun e =>
      match getRelation g e nid with
      | some r => r.logic == RLogic.AND
      | none => true)
    if allOr then
      some (evidenceNodes.foldl (fun acc e =>
        match getRelation g e nid with
        | some r => max acc ((m e).beliefValue * r.weight)
        | none => acc) 0)
    else if allAnd then
      let e0 := evidenceNodes.headD 0
      let w0 := match getRelation g e0 nid with
        | some r => r.weight
        | none => 0
      let b0 := (m e0).beliefValue * w0
      some ((evidenceNodes.drop 1).foldl (fun (acc : ℚ × Bool) e =>
        if acc.2 then acc
        else
          match getRelation g e nid with
          | none => acc
          | some r =>
              let wb := (m e).beliefValue * r.weight
              let k := (1 - acc.1) * wb + acc.1 * (1 - wb)
              if k < 1 then ((acc.1 * wb) / (1 - k), false)
              else (0, true)) (b0, false)).1
    else none

/-- One hypothesis node of `SituationReasoner::beliefPropagation`
(SituationReasoner.cc lines 44-180): collect the Vertical evidences, run
the four-case belief computation, then — for non-bottom layers only —
compare the (updated) belief against the threshold, set the state and
append it to the state buffer. -/
def beliefPropNode (g : SituationGraph) (numLayers li : Nat) (m : IMap)
    (nid : Long) : IMap :=
  let node := g.nodes nid
  let evidenceNodes := node.evidences.filter (fun e =>
    match getRelation g e nid with
    | some r => r.rtype == RType.V
    | none => false)
  let m1 := match beliefPropBelief g m nid evidenceNodes with
    | some b => updI m nid (updateBelief b)
    | none => m
  beliefThresholdPass numLayers li node.threshold nid m1

/-- `SituationReasoner::beliefPropagation`: layers from the bottom
(`numLayers - 1`) up to the top (0), nodes in topological order. -/
def beliefPropagation (g : SituationGraph) (m : IMap) : IMap :=
  (List.range (modelHeight g)).reverse.foldl
    (fun m li => (g.layers.getD li []).foldl
      (beliefPropNode g (modelHeight g) li) m) m

/-- `SituationReasoner::determineCauseState`
(SituationReasoner.cc lines 407-478). -/
def determineCauseState (g : SituationGraph) (m : IMap)
    (causeId effectId : Long) : SState :=
  if (m effectId).state ≠ SState.TRIGGERED then SState.UNDETERMINED
  else
    let hOut := (getOutgoingRelations g causeId).filter
      (fun p => p.2.rtype == RType.H)
    let effects := hOut.map (·.1)
    let effectRelations := hOut.map (fun p => p.2.logic)
    let condition2_1 := (g.nodes effectId).causes.all (fun oc =>
      if oc ≠ causeId then
        match getRelation g oc effectId with
        | some r => !(r.rtype == RType.H)
        | none => true
      else true)
    let allOr := effectRelations.all (· == RLogic.OR)
    let allAnd := effectRelations.all (· == RLogic.AND)
    let condition2_3 := allAnd && effects.all (fun oe =>
      if oe ≠ effectId then decide ((m oe).state = SState.UNTRIGGERED)
      else true)
    if condition2_1 || allOr || condition2_3 then SState.TRIGGERED
    else SState.UNDETERMINED

/-- `SituationReasoner::determineChildState`
(SituationReasoner.cc lines 480-552). -/
def determineChildState (g : SituationGraph) (m : IMap)
    (parentId childId : Long) : SState :=
  if (m parentId).state ≠ SState.TRIGGERED then SState.UNDETERMINED
  else
    let vOut := (getOutgoingRelations g parentId).filter
      (fun p => p.2.rtype == RType.V)
    let vChildren := vOut.map (·.1)
    let vRelations := vOut.map (fun p => p.2.logic)
    let condition2a := decide (vChildren = [childId])
    let allOr := vRelations.all (· == RLogic.OR)
    let allAnd := vRelations.all (· == RLogic.AND)
    let condition2b := allOr && vChildren.all (fun e =>
      if e ≠ childId then decide ((m e).state = SState.UNTRIGGERED) else true)
    let condition2c := allAnd && vChildren.all (fun e =>
      if e ≠ childId then decide ((m e).state = SState.TRIGGERED) else true)
    if condition2a || condition2b || condition2c then SState.TRIGGERED
    else SState.UNDETERMINED

/-- First pass of a `backwardRetrospection` layer (SituationReasoner.cc
lines 203-219): traverse the layer's nodes in reverse topological order,
append each node's (current or `UNTRIGGERED`) state to its buffer, and
collect the `TRIGGERED` nodes into the worklist. -/
def bwCollect (m : IMap) (nodesRev : List Long) : IMap × List Long :=
  nodesRev.foldl (fun (acc : IMap × List Long) nid =>
    if (acc.1 nid).state = SState.TRIGGERED then
      (updI acc.1 nid (fun i => addStateToBuffer i.state i), acc.2 ++ [nid])
    else
      (updI acc.1 nid (addStateToBuffer SState.UNTRIGGERED), acc.2)) (m, [])

/-- The cause-processing fold of one popped effect situation
(SituationReasoner.cc lines 246-281). -/
def bwProcessCauses (g : SituationGraph) (acc : IMap × List Long)
    (sid : Long) (causes : List Long) : IMap × List Long :=
  causes.foldl (fun (acc : IMap × List Long) c =>
    let ci := acc.1 c
    if ci.state = SState.UNTRIGGERED then
      let ns := determineCauseState g acc.1 c sid
      let m2 := updI acc.1 c (addStateToBuffer ns)
      if ns = SState.TRIGGERED ∧ ¬ acc.2.contains c then (m2, acc.2 ++ [c])
      else (m2, acc.2)
    else if ci.state = SState.TRIGGERED then
      if ¬ acc.2.contains c then (acc.1, acc.2 ++ [c]) else acc
    else acc) acc

/-- The worklist loop of one `backwardRetrospection` layer
(SituationReasoner.cc lines 223-290), popping from the front.  `fuel`
bounds the number of pops; every general theorem below holds for every
fuel value, and the concrete executions use enough fuel to reproduce the
source's trace. -/
def bwLoop (g : SituationGraph) : Nat → IMap → List Long → IMap
  | 0, m, _ => m
  | _ + 1, m, [] => m
  | fuel + 1, m, sid :: rest =>
      let node := g.nodes sid
      let causeSituations := node.causes.filter (fun c =>
        match getRelation g c sid with
        | some r => r.rtype == RType.H
        | none => false)
      let acc := bwProcessCauses g (m, rest) sid causeSituations
      bwLoop g fuel acc.1 acc.2

/-- `SituationReasoner::backwardRetrospection`: layers from the top down,
each with the collect pass followed by the worklist loop. -/
def backwardRetrospection (g : SituationGraph) (fuel : Nat) (m : IMap) :
    IMap :=
  (List.range (modelHeight g)).foldl (fun m li =>
    let acc := bwCollect m (g.layers.getD li []).reverse
    bwLoop g fuel acc.1 acc.2) m

/-- First pass of a `downwardRetrospection` layer (SituationReasoner.cc
lines 318-334): traverse the layer's nodes in topological order. -/
def dwCollect (m : IMap) (nodesL : List Long) : IMap × List Long :=
  nodesL.foldl (fun (acc : IMap × List Long) nid =>
    if (acc.1 nid).state = SState.TRIGGERED then
      (updI acc.1 nid (fun i => addStateToBuffer i.state i), acc.2 ++ [nid])
    else
      (updI acc.1 nid (addStateToBuffer SState.UNTRIGGERED), acc.2)) (m, [])

/-- The child-processing fold of one popped parent situation
(SituationReasoner.cc lines 364-395): every Vertical child gets the
determined state appended to its buffer, and newly triggered children are
pushed. -/
def dwProcessChildren (g : SituationGraph) (acc : IMap × List Long)
    (pid : Long) (children : List Long) : IMap × List Long :=
  children.foldl (fun (acc : IMap × List Long) c =>
    let ns := determineChildState g acc.1 pid c
    let m2 := updI acc.1 c (addStateToBuffer ns)
    if ns = SState.TRIGGERED ∧ ¬ acc.2.contains c then (m2, acc.2 ++ [c])
    else (m2, acc.2)) acc

/-- The worklist loop of one `downwardRetrospection` layer
(SituationReasoner.cc lines 338-398), popping from the back. -/
def dwLoop (g : SituationGraph) : Nat → IMap → List Long → IMap
  | 0, m, _ => m
  | _ + 1, m, [] => m
  | fuel + 1, m, d :: ds =>
      let dq := d :: ds
      let pid := dq.getLastD 0
      let rest := dq.dropLast
      let node := g.nodes pid
      let childSituations := node.evidences.filter (fun c =>
        match getRelation g pid c with
        | some r => r.rtype == RType.V
        | none => false)
      let acc := dwProcessChildren g (m, rest) pid childSituations
      dwLoop g fuel acc.1 acc.2

/-- `SituationReasoner::downwardRetrospection`: layers from the top down. -/
def downwardRetrospection (g : SituationGraph) (fuel : Nat) (m : IMap) :
    IMap :=
  (List.range (modelHeight g)).foldl (fun m li =>
    let acc := dwCollect m (g.layers.getD li [])
    dwLoop g fuel acc.1 acc.2) m

/-- The state-combination loop of `SituationReasoner::reason`
(SituationReasoner.cc lines 649-653): every stored instance gets
`combineStates` of its buffer as its new state and an empty buffer.  The
loop reads and writes each entry independently, so it is modelled
pointwise. -/
def combinePhase (m : IMap) : IMap := fun id =>
  let i := m id
  { i with state := combineStates i.stateBuffer, stateBuffer := [] }

/-- `SituationReasoner::checkState` (SituationReasoner.cc lines 691-697).
The range-for iterates `instanceMap` BY VALUE (`for (auto si :
instanceMap)`), so `si.second.state = UNTRIGGERED` mutates a copy of the
pair and the stored map is never modified; the fold below mirrors this by
discarding the modified copy. -/
def checkState (ids : List Long) (m : IMap) (current : ℚ) : IMap :=
  ids.foldl (fun acc id =>
    let si := acc id
    let si2 := if si.next_start + si.duration ≤ current then
        { si with state := SState.UNTRIGGERED }
      else si
    let _ := si2
    acc) m

/-! ## Bayesian inference engine (`BNInferenceEngine.cc`) -/

/-- `BNInferenceEngine::findConnectedNodes` (BNInferenceEngine.cc lines
903-930): if the node is not in `_nodeMap` the empty set is returned;
otherwise every other mapped node that is d-connected is collected.  The
d-connection test (a DFS over the dlib network) is taken as the oracle
`dconn`. -/
def findConnectedNodes (nodeMapKeys : List Long)
    (dconn : Long → Long → Bool) (nid : Long) : List Long :=
  if nodeMapKeys.contains nid then
    nodeMapKeys.filter (fun k => k != nid && dconn nid k)
  else []

/-- `BNInferenceEngine::findCausallyConnectedNodes` (BNInferenceEngine.cc
lines 876-901): the union over all instances of their connected nodes
(a `dlib::set`, modelled with duplicate suppression), plus one edge
`(cause, id)` per listed cause of every instance. -/
def findCausallyConnectedNodes (g : SituationGraph) (ids : List Long)
    (nodeMapKeys : List Long) (dconn : Long → Long → Bool) :
    List Long × List (Long × Long) :=
  (ids.foldl (fun acc id =>
      acc ++ (findConnectedNodes nodeMapKeys dconn id).filter
        (fun x => ¬ acc.contains x)) [],
   ids.foldl (fun acc id =>
      acc ++ (g.nodes id).causes.map (fun c => (c, id))) [])

/-- Modelled from the spec: `SituationGraph::createSubgraph` is declared
in SituationGraph.h ("Create a subgraph containing only the specified
nodes and edges") and called by `BNInferenceEngine::reason`, but its
definition is absent from the sources.  Modelled as the restriction of
the node-id set and the relation list to the given node and edge sets. -/
def createSubgraph (g : SituationGraph) (nodeSet : List Long)
    (edgeSet : List (Long × Long)) : SituationGraph :=
  { layers := g.layers
    nodes := g.nodes
    relationList := g.relationList.filter (fun p =>
      nodeSet.contains p.1.1 && nodeSet.contains p.1.2 &&
        edgeSet.contains p.1)
    nodeIds := g.nodeIds.filter (fun x => nodeSet.contains x) }

/-- The per-instance belief update of
`BNInferenceEngine::calculateBeliefs` (BNInferenceEngine.cc lines
808-849) for an `UNDETERMINED` instance with marginal `p`: store the
belief, test `p ≥ threshold` together with the existence of an evidence
whose counter is strictly larger, and set the state (and on success the
counter and `next_start`). -/
def updateUndetermined (g : SituationGraph) (current : ℚ) (p : ℚ)
    (m : IMap) (id : Long) : IMap :=
  let node := g.nodes id
  let m1 := updI m id (fun i => { i with beliefValue := p })
  let hasHigherCounterEvidence := node.evidences.any
    (fun e => (m1 id).counter < (m1 e).counter)
  if p ≥ node.threshold ∧ hasHigherCounterEvidence then
    updI m1 id (fun i =>
      { i with state := SState.TRIGGERED, counter := i.counter + 1,
               next_start := current })
  else updI m1 id (fun i => { i with state := SState.UNTRIGGERED })

/-- The belief-update loop of `BNInferenceEngine::calculateBeliefs`
(BNInferenceEngine.cc lines 794-853), iterating the instance map in
ascending key order.  Instances outside `_nodeMap` are skipped, as are
instances whose state is not `UNDETERMINED`.  The join-tree marginal
`solution.probability(idx)(1)` is the oracle `posterior`; `none` models a
dlib exception while querying it, which the surrounding catch blocks
log and re-throw (lines 846-849 and 856-873). -/
def calcFold (g : SituationGraph) (nodeMapKeys : List Long)
    (posterior : Long → Option ℚ) (current : ℚ) :
    IMap → List Long → Except Unit IMap
  | m, [] => .ok m
  | m, id :: rest =>
      if nodeMapKeys.contains id then
        if (m id).state = SState.UNDETERMINED then
          match posterior id with
          | none => .error ()
          | some p =>
              calcFold g nodeMapKeys posterior current
                (updateUndetermined g current p m id) rest
        else calcFold g nodeMapKeys posterior current m rest
      else calcFold g nodeMapKeys posterior current m rest

/-- `BNInferenceEngine::calculateBeliefs` restricted to its effect on the
instance store: the evidence-setting pass (lines 748-775) and the
probability printing (lines 782-790) do not modify the store, so the
observable effect is the belief-update loop. -/
def calculateBeliefs (g : SituationGraph) (nodeMapKeys : List Long)
    (posterior : Long → Option ℚ) (ids : List Long) (m : IMap)
    (current : ℚ) : Except Unit IMap :=
  calcFold g nodeMapKeys posterior current m ids

/-- `BNInferenceEngine::reason` as invoked by `SituationReasoner::reason`
on a freshly constructed engine (SituationReasoner.cc lines 659-660):
`_nodeMap` is empty when `findCausallyConnectedNodes` runs, so the causal
node set is empty, the `_nodeMap` rebuilt from the causal subgraph is
empty, and `calculateBeliefs` runs with an empty node map.  CPT
construction and the join tree touch only the dlib network, never the
instance store.  The final catch (lines 202-219) logs and re-throws, so
an error result propagates. -/
def bnEngineReason (g : SituationGraph) (ids : List Long)
    (dconn : Long → Long → Bool) (posterior : Long → Option ℚ)
    (m : IMap) (current : ℚ) : Except Unit IMap :=
  let initialNodeMapKeys : List Long := []
  let sets := findCausallyConnectedNodes g ids initialNodeMapKeys dconn
  let causal := createSubgraph g sets.1 sets.2
  let nodeMapKeys := causal.nodeIds
  calculateBeliefs g nodeMapKeys posterior ids m current

/-- `SituationReasoner::reason` (SituationReasoner.cc lines 610-689):
seed the bottom layer from `triggered`; belief propagation; backward and
downward retrospection; state combination; Bayesian-network reasoning
(whose catch block at lines 661-664 logs and re-throws, propagating any
error); the random bottom-layer trigger pass (lines 666-683, with the
per-node draws `dis(gen) < 0.3` given by the oracle `randomPick`), which
is the sole producer of the returned set `tOperational`; and finally
`checkState`. -/
def reason (g : SituationGraph) (ids : List Long) (fuel : Nat)
    (triggered : List Long) (current : ℚ) (dconn : Long → Long → Bool)
    (posterior : Long → Option ℚ) (randomPick : Long → Bool) (m : IMap) :
    Except Unit (IMap × List Long) :=
  let bottoms := g.layers.getLastD []
  let m1 := bottoms.foldl (fun m b =>
    if triggered.contains b then seedTrigger current m b else m) m
  let m2 := beliefPropagation g m1
  let m3 := backwardRetrospection g fuel m2
  let m4 := downwardRetrospection g fuel m3
  let m5 := combinePhase m4
  match bnEngineReason g ids dconn posterior m5 current with
  | .error e => .error e
  | .ok m6 =>
      let acc := bottoms.foldl (fun (acc : IMap × List Long) b =>
        if randomPick b then (seedTrigger current acc.1 b, acc.2 ++ [b])
        else acc) (m6, [])
      .ok (checkState ids acc.1 current, acc.2)

/-! ## Field-preservation lemmas for the pipeline phases -/

/-- Agreement of two stores on the `counter`, `ty` and `next_start`
fields of every instance. -/
def AgreesCNT (m m' : IMap) : Prop :=
  ∀ x, (m' x).counter = (m x).counter ∧ (m' x).ty = (m x).ty ∧
    (m' x).next_start = (m x).next_start

theorem agreesCNT_refl (m : IMap) : AgreesCNT m m := fun _ => ⟨rfl, rfl, rfl⟩

theorem agreesCNT_trans {m₁ m₂ m₃ : IMap} (h₁ : AgreesCNT m₁ m₂)
    (h₂ : AgreesCNT m₂ m₃) : AgreesCNT m₁ m₃ := by
  intro x
  exact ⟨(h₂ x).1.trans (h₁ x).1, (h₂ x).2.1.trans (h₁ x).2.1,
    (h₂ x).2.2.trans (h₁ x).2.2⟩

/-- Per-instance functions that keep `counter`, `ty` and `next_start`. -/
def InstKeepsCNT (f : SituationInstance → SituationInstance) : Prop :=
  ∀ i, (f i).counter = i.counter ∧ (f i).ty = i.ty ∧
    (f i).next_start = i.next_start

theorem agreesCNT_updI (m : IMap) (id : Long)
    (f : SituationInstance → SituationInstance) (hf : InstKeepsCNT f) :
    AgreesCNT m (updI m id f) := by
  intro x
  by_cases h : x = id
  · subst h
    rw [updI_same]
    exact hf (m x)
  · rw [updI_other m id x f h]
    exact ⟨rfl, rfl, rfl⟩

theorem instKeepsCNT_updateBelief (b : ℚ) : InstKeepsCNT (updateBelief b) := by
  intro i
  simp [updateBelief]

theorem instKeepsCNT_addStateToBuffer (s : SState) :
    InstKeepsCNT (addStateToBuffer s) := by
  intro i
  simp [addStateToBuffer]

theorem instKeepsCNT_addOwnState :
    InstKeepsCNT (fun i => addStateToBuffer i.state i) := by
  intro i
  simp [addStateToBuffer]

theorem agreesCNT_foldl {α β : Type} (proj : β → IMap) (step : β → α → β)
    (h : ∀ b a, AgreesCNT (proj b) (proj (step b a))) :
    ∀ (l : List α) (b : β), AgreesCNT (proj b) (proj (l.foldl step b)) := by
  intro l
  induction l with
  | nil => intro b; exact agreesCNT_refl _
  | cons a t ih =>
      intro b
      exact agreesCNT_trans (h b a) (ih (step b a))

theorem agreesCNT_beliefThresholdPass (n li : Nat) (th : ℚ) (nid : Long)
    (m : IMap) : AgreesCNT m (beliefThresholdPass n li th nid m) := by
  unfold beliefThresholdPass
  split
  · refine agreesCNT_updI m nid _ ?_
    intro i
    dsimp only
    split <;> simp [addStateToBuffer]
  · exact agreesCNT_refl m

theorem agreesCNT_beliefMatch (m : IMap) (nid : Long) (o : Option ℚ) :
    AgreesCNT m (match o with
      | some b => updI m nid (updateBelief b)
      | none => m) := by
  cases o with
  | none => exact agreesCNT_refl m
  | some b => exact agreesCNT_updI m nid _ (instKeepsCNT_updateBelief b)

theorem agreesCNT_beliefPropNode (g : SituationGraph) (n li : Nat)
    (m : IMap) (nid : Long) : AgreesCNT m (beliefPropNode g n li m nid) := by
  unfold beliefPropNode
  exact agreesCNT_trans (agreesCNT_beliefMatch m nid _)
    (agreesCNT_beliefThresholdPass n li _ nid _)

theorem agreesCNT_beliefPropagation (g : SituationGraph) (m : IMap) :
    AgreesCNT m (beliefPropagation g m) := by
  unfold beliefPropagation
  refine agreesCNT_foldl (fun mm => mm) _ ?_ _ m
  intro b a
  exact agreesCNT_foldl (fun mm => mm) _
    (fun b' a' => agreesCNT_beliefPropNode g (modelHeight g) a b' a') _ b

theorem agreesCNT_bwCollect (m : IMap) (l : List Long) :
    AgreesCNT m (bwCollect m l).1 := by
  unfold bwCollect
  refine agreesCNT_foldl Prod.fst _ ?_ l (m, [])
  intro b a
  dsimp only
  split
  · exact agreesCNT_updI b.1 a _ instKeepsCNT_addOwnState
  · exact agreesCNT_updI b.1 a _ (instKeepsCNT_addStateToBuffer _)

theorem agreesCNT_bwProcessCauses (g : SituationGraph)
    (acc : IMap × List Long) (sid : Long) (causes : List Long) :
    AgreesCNT acc.1 (bwProcessCauses g acc sid causes).1 := by
  unfold bwProcessCauses
  refine agreesCNT_foldl Prod.fst _ ?_ causes acc
  intro b a
  dsimp only
  split
  · split
    · exact agreesCNT_updI b.1 a _ (instKeepsCNT_addStateToBuffer _)
    · exact agreesCNT_updI b.1 a _ (instKeepsCNT_addStateToBuffer _)
  · split
    · split
      · exact agreesCNT_refl _
      · exact agreesCNT_refl _
    · exact agreesCNT_refl _

theorem agreesCNT_bwLoop (g : SituationGraph) :
    ∀ (fuel : Nat) (m : IMap) (dq : List Long),
      AgreesCNT m (bwLoop g fuel m dq) := by
  intro fuel
  induction fuel with
  | zero => intro m dq; exact agreesCNT_refl m
  | succ fuel ih =>
      intro m dq
      cases dq with
      | nil => exact agreesCNT_refl m
      | cons sid rest =>
          exact agreesCNT_trans
            (agreesCNT_bwProcessCauses g (m, rest) sid _) (ih _ _)

theorem agreesCNT_backwardRetrospection (g : SituationGraph) (fuel : Nat)
    (m : IMap) : AgreesCNT m (backwardRetrospection g fuel m) := by
  unfold backwardRetrospection
  refine agreesCNT_foldl (fun mm => mm) _ ?_ _ m
  intro b a
  exact agreesCNT_trans (agreesCNT_bwCollect b _) (agreesCNT_bwLoop g fuel _ _)

theorem agreesCNT_dwCollect (m : IMap) (l : List Long) :
    AgreesCNT m (dwCollect m l).1 := by
  unfold dwCollect
  refine agreesCNT_foldl Prod.fst _ ?_ l (m, [])
  intro b a
  dsimp only
  split
  · exact agreesCNT_updI b.1 a _ instKeepsCNT_addOwnState
  · exact agreesCNT_updI b.1 a _ (instKeepsCNT_addStateToBuffer _)

theorem agreesCNT_dwProcessChildren (g : SituationGraph)
    (acc : IMap × List Long) (pid : Long) (children : List Long) :
    AgreesCNT acc.1 (dwProcessChildren g acc pid children).1 := by
  unfold dwProcessChildren
  refine agreesCNT_foldl Prod.fst _ ?_ children acc
  intro b a
  dsimp only
  split
  · exact agreesCNT_updI b.1 a _ (instKeepsCNT_addStateToBuffer _)
  · exact agreesCNT_updI b.1 a _ (instKeepsCNT_addStateToBuffer _)

theorem agreesCNT_dwLoop (g : SituationGraph) :
    ∀ (fuel : Nat) (m : IMap) (dq : List Long),
      AgreesCNT m (dwLoop g fuel m dq) := by
  intro fuel
  induction fuel with
  | zero => intro m dq; exact agreesCNT_refl m
  | succ fuel ih =>
      intro m dq
      cases dq with
      | nil => exact agreesCNT_refl m
      | cons d ds =>
          exact agreesCNT_trans
            (agreesCNT_dwProcessChildren g (m, (d :: ds).dropLast) _ _)
            (ih _ _)

theorem agreesCNT_downwardRetrospection (g : SituationGraph) (fuel : Nat)
    (m : IMap) : AgreesCNT m (downwardRetrospection g fuel m) := by
  unfold downwardRetrospection
  refine agreesCNT_foldl (fun mm => mm) _ ?_ _ m
  intro b a
  exact agreesCNT_trans (agreesCNT_dwCollect b _) (agreesCNT_dwLoop g fuel _ _)

theorem agreesCNT_combinePhase (m : IMap) : AgreesCNT m (combinePhase m) := by
  intro x
  simp [combinePhase]

/-- With the empty node map the connected-node search returns nothing. -/
theorem nodeSet_empty (dconn : Long → Long → Bool) :
    ∀ (ids : List Long) (acc : List Long),
      ids.foldl (fun acc id =>
        acc ++ (findConnectedNodes [] dconn id).filter
          (fun x => ¬ acc.contains x)) acc = acc := by
  intro ids
  induction ids with
  | nil => intro acc; rfl
  | cons a t ih =>
      intro acc
      simp only [List.foldl_cons]
      have h : findConnectedNodes [] dconn a = [] := rfl
      rw [h]
      simp only [List.filter_nil, List.append_nil]
      exact ih acc

theorem calcFold_nil_keys (g : SituationGraph) (post : Long → Option ℚ)
    (cur : ℚ) : ∀ (ids : List Long) (m : IMap),
      calcFold g [] post cur m ids = .ok m := by
  intro ids
  induction ids with
  | nil => intro m; rfl
  | cons a t ih =>
      intro m
      simp only [calcFold, List.contains_nil, Bool.false_eq_true, if_false]
      exact ih m

/-- Under the call path of `SituationReasoner::reason` (fresh engine,
empty `_nodeMap` during `findCausallyConnectedNodes`), the Bayesian
engine leaves the instance store unchanged and succeeds. -/
theorem bnEngineReason_ok (g : SituationGraph) (ids : List Long)
    (dconn : Long → Long → Bool) (post : Long → Option ℚ) (m : IMap)
    (cur : ℚ) : bnEngineReason g ids dconn post m cur = .ok m := by
  unfold bnEngineReason findCausallyConnectedNodes createSubgraph
    calculateBeliefs
  simp only [nodeSet_empty dconn ids]
  have hkeys : g.nodeIds.filter (fun x => ([] : List Long).contains x) = [] := by
    simp
  simp only [hkeys]
  exact calcFold_nil_keys g post cur ids m

theorem checkState_eq (ids : List Long) (m : IMap) (c : ℚ) :
    checkState ids m c = m := by
  induction ids with
  | nil => rfl
  | cons a t ih => exact ih

theorem foldl_seed_not_mem (cur : ℚ) (cond : Long → Bool) :
    ∀ (bs : List Long) (m : IMap) (x : Long), x ∉ bs →
      (bs.foldl (fun m b => if cond b then seedTrigger cur m b else m) m) x =
        m x := by
  intro bs
  induction bs with
  | nil => intro m x _; rfl
  | cons a t ih =>
      intro m x hx
      have hxa : x ≠ a := by
        intro h
        subst h
        exact hx (List.mem_cons_self x t)
      have hxt : x ∉ t := fun h => hx (List.mem_cons_of_mem a h)
      rw [List.foldl_cons, ih _ x hxt]
      split
      · exact updI_other m a x _ hxa
      · rfl

theorem foldl_random_fst_not_mem (cur : ℚ) (pick : Long → Bool) :
    ∀ (bs : List Long) (acc : IMap × List Long) (x : Long), x ∉ bs →
      ((bs.foldl (fun (acc : IMap × List Long) b =>
        if pick b then (seedTrigger cur acc.1 b, acc.2 ++ [b]) else acc)
        acc).1) x = acc.1 x := by
  intro bs
  induction bs with
  | nil => intro acc x _; rfl
  | cons a t ih =>
      intro acc x hx
      have hxa : x ≠ a := by
        intro h
        subst h
        exact hx (List.mem_cons_self x t)
      have hxt : x ∉ t := fun h => hx (List.mem_cons_of_mem a h)
      rw [List.foldl_cons, ih _ x hxt]
      split
      · simp only [seedTrigger]
        exact updI_other acc.1 a x _ hxa
      · rfl

theorem seedTrigger_ty (cur : ℚ) (m : IMap) (b x : Long) :
    ((seedTrigger cur m b) x).ty = (m x).ty := by
  by_cases h : x = b
  · subst h
    simp [seedTrigger, updI_same]
  · rw [seedTrigger, updI_other _ _ _ _ h]

theorem foldl_seed_ty (cur : ℚ) (cond : Long → Bool) :
    ∀ (bs : List Long) (m : IMap) (x : Long),
      ((bs.foldl (fun m b => if cond b then seedTrigger cur m b else m) m)
        x).ty = (m x).ty := by
  intro bs
  induction bs with
  | nil => intro m x; rfl
  | cons a t ih =>
      intro m x
      rw [List.foldl_cons, ih]
      split
      · exact seedTrigger_ty cur m a x
      · rfl

theorem foldl_random_fst_ty (cur : ℚ) (pick : Long → Bool) :
    ∀ (bs : List Long) (acc : IMap × List Long) (x : Long),
      (((bs.foldl (fun (acc : IMap × List Long) b =>
        if pick b then (seedTrigger cur acc.1 b, acc.2 ++ [b]) else acc)
        acc).1) x).ty = (acc.1 x).ty := by
  intro bs
  induction bs with
  | nil => intro acc x; rfl
  | cons a t ih =>
      intro acc x
      rw [List.foldl_cons, ih]
      split
      · exact seedTrigger_ty cur acc.1 a x
      · rfl

/-- The middle phases of `reason` (belief propagation, both
retrospections, state combination) keep every instance's `counter`. -/
theorem middle_phases_counter (g : SituationGraph) (fuel : Nat) (m : IMap)
    (x : Long) :
    ((combinePhase (downwardRetrospection g fuel
      (backwardRetrospection g fuel (beliefPropagation g m)))) x).counter =
      (m x).counter := by
  have h2 := (agreesCNT_beliefPropagation g m x).1
  have h3 := (agreesCNT_backwardRetrospection g fuel
    (beliefPropagation g m) x).1
  have h4 := (agreesCNT_downwardRetrospection g fuel
    (backwardRetrospection g fuel (beliefPropagation g m)) x).1
  simp only [combinePhase]
  rw [h4, h3, h2]

/-- The middle phases of `reason` keep every instance's `ty`. -/
theorem middle_phases_ty (g : SituationGraph) (fuel : Nat) (m : IMap)
    (x : Long) :
    ((combinePhase (downwardRetrospection g fuel
      (backwardRetrospection g fuel (beliefPropagation g m)))) x).ty =
      (m x).ty := by
  have h2 := (agreesCNT_beliefPropagation g m x).2.1
  have h3 := (agreesCNT_backwardRetrospection g fuel
    (beliefPropagation g m) x).2.1
  have h4 := (agreesCNT_downwardRetrospection g fuel
    (backwardRetrospection g fuel (beliefPropagation g m)) x).2.1
  simp only [combinePhase]
  rw [h4, h3, h2]

/-! ## Concrete models used by the claim theorems -/

/-- A single-node model: one layer containing the single operational
node 0 (no relations). -/
def g1 : SituationGraph :=
  { layers := [[0]]
    nodes := fun _ =>
      { id := 0, index := 0, threshold := mkRat 1 2, causes := [],
        evidences := [] }
    relationList := []
    nodeIds := [0] }

/-- A fresh instance store: every instance untriggered with counter 0 and
duration 10 s (the store built by `loadModel` for such models). -/
def mFresh : IMap := fun x => { defaultInstance with id := x, duration := 10 }

/-- The node map of scenario S1: `A(0, layer 0) ← B(1, layer 1) ←
C(2, layer 2)` along Vertical `Sole` relations. -/
def nodeS1 : Long → SituationNode := fun x =>
  if x = 0 then
    { id := 0, index := 0, threshold := mkRat 1 2, causes := [],
      evidences := [1] }
  else if x = 1 then
    { id := 1, index := 1, threshold := mkRat 1 2, causes := [],
      evidences := [2] }
  else
    { id := 2, index := 2, threshold := mkRat 1 2, causes := [],
      evidences := [] }

/-- Scenario S1 from the spec: a three-layer chain with Vertical Sole
relations `A→B` (weight 9/10) and `B→C` (weight 4/5), thresholds 1/2. -/
def gS1 : SituationGraph :=
  { layers := [[0], [1], [2]]
    nodes := nodeS1
    relationList :=
      [((0, 1), { src := 0, dest := 1, rtype := RType.V,
                  logic := RLogic.SOLE, weight := mkRat 9 10 }),
       ((1, 2), { src := 1, dest := 2, rtype := RType.V,
                  logic := RLogic.SOLE, weight := mkRat 4 5 })]
    nodeIds := [0, 1, 2] }

/-- C1: `reason`'s returned set is produced exclusively by the random
30 %-trigger pass (SituationReasoner.cc lines 666-683), not by the
seeded bottom-layer triggers.  At the failing input — the single-node
model, `triggered = {0}`, `current = 1`, all random draws false — the
call returns the empty set although node 0 is a bottom-layer instance
with `state = Triggered` and `next_start = current` at return. -/
theorem reason_returned_set_omits_seeded_triggers :
    (reason g1 [0] 16 [0] 1 (fun _ _ => false) (fun _ => none)
        (fun _ => false) mFresh).toOption.map
      (fun r => ((r.1 0).state, (r.1 0).next_start, r.2)) =
      some (SState.TRIGGERED, 1, []) ∧
    g1.layers.getLastD [] = [0] := by
  constructor
  · decide
  · decide

/-- C2 counterexample: in scenario S1, after `reason({C}, 1.0)` (with all
random draws false), `B`'s and `A`'s counters remain 0 while `C`'s
counter is 1 — although every child of `B` (namely `C`) then has a
strictly larger counter, no upward counter propagation takes place, so
the claim's asserted `B.counter = 1` and `A.counter = 1` are false on
the code. -/
theorem upward_counter_propagation_missing :
    (reason gS1 [0, 1, 2] 16 [2] 1 (fun _ _ => false) (fun _ => none)
        (fun _ => false) mFresh).toOption.map
      (fun r => ((r.1 0).counter, (r.1 1).counter, (r.1 2).counter, r.2)) =
      some (0, 0, 1, []) := by
  decide

/-- C2 amended: `reason` performs no upward counter propagation — the
counter of every instance outside the bottom layer is unchanged by a
reasoning cycle (only the bottom-layer seed pass, the random trigger
pass, and the Bayesian update — which under `reason`'s fresh-engine call
path updates nothing — touch counters). -/
theorem reason_preserves_nonbottom_counters (g : SituationGraph)
    (ids : List Long) (fuel : Nat) (triggered : List Long) (current : ℚ)
    (dconn : Long → Long → Bool) (posterior : Long → Option ℚ)
    (randomPick : Long → Bool) (m : IMap) (id : Long)
    (h : id ∉ g.layers.getLastD []) :
    (reason g ids fuel triggered current dconn posterior randomPick m).map
      (fun r => (r.1 id).counter) = .ok ((m id).counter) := by
  simp only [reason, bnEngineReason_ok, Except.map]
  rw [checkState_eq]
  rw [foldl_random_fst_not_mem current randomPick (g.layers.getLastD []) _ id h]
  rw [middle_phases_counter]
  rw [foldl_seed_not_mem current (fun b => triggered.contains b)
    (g.layers.getLastD []) m id h]

/-- Witness for C2's amended theorem: in scenario S1 the middle-layer
node `B = 1` is not in the bottom layer, and its counter after
`reason({C}, 1.0)` equals its initial counter. -/
theorem reason_preserves_nonbottom_counters_witness :
    (1 : Long) ∉ gS1.layers.getLastD [] ∧
    (reason gS1 [0, 1, 2] 16 [2] 1 (fun _ _ => false) (fun _ => none)
        (fun _ => false) mFresh).map
      (fun r => (r.1 1).counter) = .ok ((mFresh 1).counter) :=
  ⟨by decide,
   reason_preserves_nonbottom_counters gS1 [0, 1, 2] 16 [2] 1
     (fun _ _ => false) (fun _ => none) (fun _ => false) mFresh 1 (by decide)⟩

/-- The instance used as C4's failing input: `state = Triggered`,
`next_start = 1`, `duration = 10`. -/
def mDecay : IMap := fun x =>
  { defaultInstance with
      id := x
      state := SState.TRIGGERED
      next_start := 1
      duration := 10 }

/-- C4: `checkState` iterates the instance map by value, so the decay
write `si.second.state = UNTRIGGERED` lands on a copy: the store is
returned unchanged for every input, and at the failing input (instance
triggered at 1 with duration 10, checked at `current = 12`, where
`next_start + duration ≤ current` holds) the instance is still
`Triggered` afterwards. -/
theorem checkState_decay_is_never_applied :
    (∀ (ids : List Long) (m : IMap) (current : ℚ),
      checkState ids m current = m) ∧
    ((checkState [0] mDecay 12 0).state = SState.TRIGGERED ∧
      (mDecay 0).next_start + (mDecay 0).duration ≤ 12) := by
  refine ⟨checkState_eq, ?_, ?_⟩
  · rw [checkState_eq]
    rfl
  · show (1 : ℚ) + 10 ≤ 12
    norm_num

/-- C10: every instance the evolution store ever holds has type
`NORMAL`: the parameterised `SituationInstance` constructor ignores its
type argument (`SituationInstance.h` lines 101-106 initialise
`type(NORMAL)`), `addInstance` therefore always stores a `NORMAL`
instance, and a full reasoning cycle never changes any instance's
type. -/
theorem stored_instances_always_normal :
    (∀ (id : Long) (ty : SType) (d c : ℚ),
      (mkSituationInstance id ty d c).ty = SType.NORMAL) ∧
    (∀ (m : IMap) (id : Long) (ty : SType) (d c : ℚ) (x : Long),
      ((addInstance m id ty d c) x).ty =
        if x = id then SType.NORMAL else (m x).ty) ∧
    (∀ (g : SituationGraph) (ids : List Long) (fuel : Nat)
      (triggered : List Long) (current : ℚ) (dconn : Long → Long → Bool)
      (posterior : Long → Option ℚ) (randomPick : Long → Bool) (m : IMap)
      (x : Long),
      (reason g ids fuel triggered current dconn posterior randomPick m).map
        (fun r => (r.1 x).ty) = .ok ((m x).ty)) := by
  refine ⟨fun id ty d c => rfl, ?_, ?_⟩
  · intro m id ty d c x
    by_cases h : x = id
    · subst h
      rw [addInstance, updI_same]
      simp [mkSituationInstance]
    · rw [addInstance, updI_other _ _ _ _ h, if_neg h]
  · intro g ids fuel triggered current dconn posterior randomPick m x
    simp only [reason, bnEngineReason_ok, Except.map]
    rw [checkState_eq]
    rw [foldl_random_fst_ty]
    rw [middle_phases_ty]
    rw [foldl_seed_ty]

/-! ## The belief-update rule of `calculateBeliefs` (claim C5) -/

theorem list_any_congr {α : Type} (l : List α) (p q : α → Bool)
    (h : ∀ a, p a = q a) : l.any p = l.any q := by
  induction l with
  | nil => rfl
  | cons a t ih => simp [List.any, h a, ih]

theorem updateUndetermined_other (g : SituationGraph) (cur p : ℚ)
    (m : IMap) (id x : Long) (h : x ≠ id) :
    (updateUndetermined g cur p m id) x = m x := by
  unfold updateUndetermined
  split
  · rw [updI_other _ _ _ _ h, updI_other _ _ _ _ h]
  · rw [updI_other _ _ _ _ h, updI_other _ _ _ _ h]

theorem updateUndetermined_self (g : SituationGraph) (cur p : ℚ)
    (m : IMap) (id : Long) :
    (updateUndetermined g cur p m id) id =
      (if p ≥ (g.nodes id).threshold ∧
          ((g.nodes id).evidences.any
            (fun e => (m id).counter < (m e).counter)) = true
       then { m id with
                beliefValue := p
                state := SState.TRIGGERED
                counter := (m id).counter + 1
                next_start := cur }
       else { m id with
                beliefValue := p
                state := SState.UNTRIGGERED }) := by
  unfold updateUndetermined
  have hany : ((g.nodes id).evidences.any (fun e =>
      (updI m id (fun i => { i with beliefValue := p }) id).counter <
        (updI m id (fun i => { i with beliefValue := p }) e).counter)) =
      ((g.nodes id).evidences.any
        (fun e => (m id).counter < (m e).counter)) := by
    apply list_any_congr
    intro e
    by_cases he : e = id
    · subst he
      simp [updI_same]
    · rw [updI_other _ _ _ _ he, updI_same]
  simp only [hany]
  split
  · rw [updI_same, updI_same]
  · rw [updI_same, updI_same]

theorem calcFold_preserves_unprocessed (g : SituationGraph)
    (keys : List Long) (post : Long → Option ℚ) (cur : ℚ) :
    ∀ (ids : List Long) (m mf : IMap) (x : Long), x ∉ ids →
      calcFold g keys post cur m ids = .ok mf → mf x = m x := by
  intro ids
  induction ids with
  | nil =>
      intro m mf x _ h
      cases h
      rfl
  | cons a t ih =>
      intro m mf x hx h
      have hxa : x ≠ a := by
        intro hh
        subst hh
        exact hx (List.mem_cons_self x t)
      have hxt : x ∉ t := fun hh => hx (List.mem_cons_of_mem a hh)
      rw [calcFold] at h
      split at h
      · split at h
        · cases hp : post a with
          | none => rw [hp] at h; cases h
          | some p =>
              rw [hp] at h
              rw [ih _ _ _ hxt h]
              exact updateUndetermined_other g cur p m a x hxa
        · exact ih _ _ _ hxt h
      · exact ih _ _ _ hxt h

theorem calcFold_append (g : SituationGraph) (keys : List Long)
    (post : Long → Option ℚ) (cur : ℚ) (rest : List Long) :
    ∀ (pre : List Long) (m mMid : IMap),
      calcFold g keys post cur m pre = .ok mMid →
      calcFold g keys post cur m (pre ++ rest) =
        calcFold g keys post cur mMid rest := by
  intro pre
  induction pre with
  | nil =>
      intro m mMid h
      cases h
      rfl
  | cons a t ih =>
      intro m mMid h
      rw [calcFold] at h
      rw [List.cons_append, calcFold]
      split at h
      · rename_i hc
        rw [if_pos hc]
        split at h
        · rename_i hs
          rw [if_pos hs]
          cases hp : post a with
          | none => rw [hp] at h; cases h
          | some p =>
              rw [hp] at h
              exact ih _ _ h
        · rename_i hs
          rw [if_neg hs]
          exact ih _ _ h
      · rename_i hc
        rw [if_neg hc]
        exact ih _ _ h

theorem calcFold_skips_non_undetermined (g : SituationGraph)
    (keys : List Long) (post : Long → Option ℚ) (cur : ℚ) :
    ∀ (ids : List Long) (m mf : IMap) (x : Long),
      (m x).state ≠ SState.UNDETERMINED →
      calcFold g keys post cur m ids = .ok mf → mf x = m x := by
  intro ids
  induction ids with
  | nil =>
      intro m mf x _ h
      cases h
      rfl
  | cons a t ih =>
      intro m mf x hx h
      rw [calcFold] at h
      split at h
      · split at h
        · rename_i hs
          have hxa : x ≠ a := by
            intro hh
            subst hh
            exact hx hs
          cases hp : post a with
          | none => rw [hp] at h; cases h
          | some p =>
              rw [hp] at h
              have hx' : ((updateUndetermined g cur p m a) x).state ≠
                  SState.UNDETERMINED := by
                rw [updateUndetermined_other g cur p m a x hxa]
                exact hx
              rw [ih _ _ _ hx' h]
              exact updateUndetermined_other g cur p m a x hxa
        · exact ih _ _ _ hx h
      · exact ih _ _ _ hx h

/-- C5: the refinement rule of `calculateBeliefs`.  For an instance `id`
that is `UNDETERMINED` when the update loop reaches it (its prefix of
the iteration having produced the store `mMid`), that is present in the
engine's node map and whose join-tree marginal is `p`: the engine stores
`p` as the instance's belief, and sets the state to `TRIGGERED`,
increments the counter and sets `next_start` to `current` exactly when
`p ≥ threshold` and some evidence has a strictly larger counter;
otherwise it sets the state to `UNTRIGGERED` (counter and `next_start`
unchanged).  Instances whose state is not `UNDETERMINED` are left
completely unchanged by the loop. -/
theorem calculateBeliefs_refinement_rule :
    (∀ (g : SituationGraph) (keys : List Long)
      (posterior : Long → Option ℚ) (current : ℚ) (m : IMap)
      (pre post2 : List Long) (id : Long) (p : ℚ) (mMid mf : IMap),
      calculateBeliefs g keys posterior pre m current = .ok mMid →
      keys.contains id = true →
      (mMid id).state = SState.UNDETERMINED →
      posterior id = some p →
      id ∉ post2 →
      calculateBeliefs g keys posterior (pre ++ id :: post2) m current =
        .ok mf →
      (mf id).beliefValue = p ∧
      ((p ≥ (g.nodes id).threshold ∧
          ((g.nodes id).evidences.any
            (fun e => (mMid id).counter < (mMid e).counter)) = true) →
        (mf id).state = SState.TRIGGERED ∧
        (mf id).counter = (mMid id).counter + 1 ∧
        (mf id).next_start = current) ∧
      (¬ (p ≥ (g.nodes id).threshold ∧
          ((g.nodes id).evidences.any
            (fun e => (mMid id).counter < (mMid e).counter)) = true) →
        (mf id).state = SState.UNTRIGGERED ∧
        (mf id).counter = (mMid id).counter ∧
        (mf id).next_start = (mMid id).next_start)) ∧
    (∀ (g : SituationGraph) (keys : List Long)
      (posterior : Long → Option ℚ) (current : ℚ) (ids : List Long)
      (m mf : IMap) (x : Long),
      (m x).state ≠ SState.UNDETERMINED →
      calculateBeliefs g keys posterior ids m current = .ok mf →
      mf x = m x) := by
  constructor
  · intro g keys posterior current m pre post2 id p mMid mf hpre hin hund
      hp hnotin hf
    unfold calculateBeliefs at hpre hf
    rw [calcFold_append g keys posterior current (id :: post2) pre m mMid
      hpre] at hf
    rw [calcFold, if_pos hin, if_pos hund, hp] at hf
    have hfid : mf id = (updateUndetermined g current p mMid id) id :=
      calcFold_preserves_unprocessed g keys posterior current post2 _ mf id
        hnotin hf
    rw [hfid, updateUndetermined_self]
    constructor
    · split
      · rfl
      · rfl
    constructor
    · intro hcond
      rw [if_pos hcond]
      exact ⟨rfl, rfl, rfl⟩
    · intro hcond
      rw [if_neg hcond]
      exact ⟨rfl, rfl, rfl⟩
  · intro g keys posterior current ids m mf x hx h
    exact calcFold_skips_non_undetermined g keys posterior current ids m mf
      x hx h

/-- The model for C5's witness: node 5 (threshold 1/2, evidence 6,
undetermined, counter 0) above node 6 (counter 1). -/
def gC5 : SituationGraph :=
  { layers := [[5], [6]]
    nodes := fun x =>
      if x = 5 then
        { id := 5, index := 0, threshold := mkRat 1 2, causes := [],
          evidences := [6] }
      else
        { id := 6, index := 1, threshold := mkRat 1 2, causes := [],
          evidences := [] }
    relationList :=
      [((5, 6), { src := 5, dest := 6, rtype := RType.V,
                  logic := RLogic.SOLE, weight := mkRat 9 10 })]
    nodeIds := [5, 6] }

def mC5 : IMap := fun x =>
  if x = 6 then { defaultInstance with id := 6, counter := 1 }
  else if x = 5 then
    { defaultInstance with id := 5, state := SState.UNDETERMINED }
  else defaultInstance

def mC5res : IMap := updateUndetermined gC5 2 (mkRat 3 4) mC5 5

/-- Witness for C5 at a concrete input: with marginal 3/4 ≥ threshold 1/2
and evidence 6 carrying a larger counter, instance 5 is triggered with
belief 3/4, counter 1 and `next_start = 2`. -/
theorem calculateBeliefs_refinement_rule_witness :
    (mC5res 5).beliefValue = mkRat 3 4 ∧
    (mC5res 5).state = SState.TRIGGERED ∧
    (mC5res 5).counter = 1 ∧ (mC5res 5).next_start = 2 ∧
    mC5res 6 = mC5 6 := by
  have hmain := calculateBeliefs_refinement_rule
  have hA := hmain.1 gC5 [5] (fun x => if x = 5 then some (mkRat 3 4)
      else none) 2 mC5 [] [] 5 (mkRat 3 4) mC5 mC5res rfl (by decide) rfl
    rfl (by decide) rfl
  have hcond : (mkRat 3 4 ≥ (gC5.nodes 5).threshold ∧
      ((gC5.nodes 5).evidences.any
        (fun e => (mC5 5).counter < (mC5 e).counter)) = true) := by
    constructor
    · decide
    · decide
  have hB := hmain.2 gC5 [5] (fun x => if x = 5 then some (mkRat 3 4)
      else none) 2 [5] mC5 mC5res 6 (by decide) rfl
  refine ⟨hA.1, (hA.2.1 hcond).1, ?_, (hA.2.1 hcond).2.2, hB⟩
  have := (hA.2.1 hcond).2.1
  rw [this]
  rfl

/-! ## CPT construction (`BNInferenceEngine::constructCPT`, claim C6) -/

/-- `EPSILON` of `constructCPT` (BNInferenceEngine.cc line 282). -/
def cptEps : ℚ := mkRat 1 1000000

/-- The table written by one `constructCPT` call, by dispatch case. -/
inductive CPTOutcome where
  | unconditional (p0 p1 : ℚ)
  | andTable (andNodes : List Long) (w : ℚ)
  | orTable (orNodes : List Long) (w : ℚ)
  | mixed (andNodes orNodes : List Long) (wu wv : ℚ)
deriving DecidableEq, Repr

/-- Whether the relation `(s → d)` exists and has the given logic. -/
def relLogicIs (g : SituationGraph) (s d : Long) (l : RLogic) : Bool :=
  match getRelation g s d with
  | some r => r.logic == l
  | none => false

/-- `BNInferenceEngine::constructCPT` (BNInferenceEngine.cc lines
268-619) as the dispatch over the AND/OR classification together with
the table it writes.  Step 1 (lines 287-309) classifies each cause `c`
by the relation `c → node` and each evidence `e` by the relation
`node → e`; `SOLE` relations are put in neither bag (line 295: "SOLE
relations will be handled in Case 2").  Case 1 (lines 311-317) fires
when both bags are empty and RETURNS after writing the unconditional
table `P(v=0) = 1 − EPS`, `P(v=1) = EPS`; the Case 2 block (lines
319-360) is guarded by the identical condition `andNodes.empty() &&
orNodes.empty()` after that return and is therefore dead code.  The
weight accumulations of Cases 3-5 multiply a relation's weight only when
the corresponding instance is `TRIGGERED`, and always look the relation
up as `parent → node`, mirroring lines 362-524. -/
def constructCPT (g : SituationGraph) (m : IMap) (node : SituationNode) :
    CPTOutcome :=
  let andNodes :=
    node.causes.filter (fun c => relLogicIs g c node.id RLogic.AND) ++
      node.evidences.filter (fun e => relLogicIs g node.id e RLogic.AND)
  let orNodes :=
    node.causes.filter (fun c => relLogicIs g c node.id RLogic.OR) ++
      node.evidences.filter (fun e => relLogicIs g node.id e RLogic.OR)
  let andW := andNodes.foldl (fun w a =>
    match getRelation g a node.id with
    | none => w
    | some r => if (m a).state = SState.TRIGGERED then w * r.weight else w) 1
  let orW := orNodes.foldl (fun w o =>
    match getRelation g o node.id with
    | none => w
    | some r =>
        if (m o).state = SState.TRIGGERED then w * (1 - r.weight) else w) 1
  if andNodes.isEmpty && orNodes.isEmpty then
    CPTOutcome.unconditional (1 - cptEps) cptEps
  else if !andNodes.isEmpty && orNodes.isEmpty then
    CPTOutcome.andTable andNodes andW
  else if andNodes.isEmpty && !orNodes.isEmpty then
    CPTOutcome.orTable orNodes orW
  else
    CPTOutcome.mixed andNodes orNodes andW orW

/-- C6: for a node whose only connection is a single `SOLE` cause `u`,
`constructCPT` classifies `u` into neither the AND nor the OR bag, so
Case 1 fires and returns the unconditional table `P(v=0) = 1 − EPS`,
`P(v=1) = EPS`, independent of `u` and of the relation weight; the
intended conditional table `P(v=1 | u=1) = w`, `P(v=1 | u=0) = 0` of the
Case 2 block is never written because that block is dead code. -/
theorem constructCPT_sole_parent_gets_unconditional_table
    (g : SituationGraph) (m : IMap) (node : SituationNode) (u : Long)
    (r : SituationRelation) (hc : node.causes = [u])
    (he : node.evidences = []) (hr : getRelation g u node.id = some r)
    (hl : r.logic = RLogic.SOLE) :
    constructCPT g m node =
      CPTOutcome.unconditional (1 - cptEps) cptEps := by
  unfold constructCPT
  rw [hc, he]
  simp [relLogicIs, hr, hl]

/-- The model for C6's witness: node 8 with the single SOLE cause 7
(weight 3/5). -/
def gC6 : SituationGraph :=
  { layers := [[7, 8]]
    nodes := fun x =>
      if x = 8 then
        { id := 8, index := 1, threshold := mkRat 1 2, causes := [7],
          evidences := [] }
      else
        { id := 7, index := 0, threshold := mkRat 1 2, causes := [],
          evidences := [] }
    relationList :=
      [((7, 8), { src := 7, dest := 8, rtype := RType.H,
                  logic := RLogic.SOLE, weight := mkRat 3 5 })]
    nodeIds := [7, 8] }

/-- Witness for C6: the concrete sole-parent node 8 of `gC6` receives
the unconditional Case-1 table. -/
theorem constructCPT_sole_parent_gets_unconditional_table_witness :
    constructCPT gC6 mFresh (gC6.nodes 8) =
      CPTOutcome.unconditional (1 - cptEps) cptEps :=
  constructCPT_sole_parent_gets_unconditional_table gC6 mFresh (gC6.nodes 8)
    7 { src := 7, dest := 8, rtype := RType.H, logic := RLogic.SOLE,
        weight := mkRat 3 5 } rfl rfl rfl rfl

/-! ## Exception plumbing of the engine (claim C7) -/

/-- The catch block at the end of `BNInferenceEngine::reason`
(BNInferenceEngine.cc lines 202-219): it prints diagnostics and then
re-throws (`throw;`), so the engine's result is the inner result
unchanged. -/
def engineReasonCatch (r : Except Unit IMap) : Except Unit IMap :=
  match r with
  | .ok mm => .ok mm
  | .error e => .error e

/-- The catch around the engine call inside `SituationReasoner::reason`
(SituationReasoner.cc lines 657-664): prints the message and re-throws
(`throw;`). -/
def reasonerEngineCatch (r : Except Unit IMap) : Except Unit IMap :=
  match r with
  | .ok mm => .ok mm
  | .error e => .error e

/-- C7 counterexample: a missing marginal for the undetermined mapped
instance 5 makes `calculateBeliefs` fail, and the failure passes through
both catch blocks unchanged — the error propagates out of `reason`
instead of being replaced by a 0.5 default. -/
theorem inference_error_escapes_reason :
    reasonerEngineCatch (engineReasonCatch
      (calculateBeliefs gC5 [5] (fun _ => none) [5, 6] mC5 2)) =
      .error () := by
  rfl

/-- C7 amended: inference failures are not contained: every catch block
on the path (`calculateBeliefs`'s, `BNInferenceEngine::reason`'s and
`SituationReasoner::reason`'s) logs and re-throws, so the engine result
— success or error — passes through unchanged, and a missing marginal
for an undetermined mapped instance produces an error rather than a 0.5
default belief. -/
theorem inference_errors_are_rethrown :
    (∀ r : Except Unit IMap,
      reasonerEngineCatch (engineReasonCatch r) = r) ∧
    (∀ (g : SituationGraph) (keys : List Long)
      (posterior : Long → Option ℚ) (cur : ℚ) (m : IMap) (id : Long)
      (rest : List Long), keys.contains id = true →
      (m id).state = SState.UNDETERMINED →
      posterior id = none →
      calculateBeliefs g keys posterior (id :: rest) m cur = .error ()) := by
  constructor
  · intro r
    cases r with
    | ok mm => rfl
    | error e => rfl
  · intro g keys posterior cur m id rest hk hs hp
    unfold calculateBeliefs
    rw [calcFold, if_pos hk, if_pos hs, hp]

/-- Witness for C7's amended theorem at the concrete C5 model. -/
theorem inference_errors_are_rethrown_witness :
    calculateBeliefs gC5 [5] (fun _ => none) (5 :: [6]) mC5 2 =
      .error () :=
  inference_errors_are_rethrown.2 gC5 [5] (fun _ => none) 2 mC5 5 [6]
    (by decide) rfl rfl

/-! ## Operation generator (`OperationGenerator.cc`, claim C8) -/

/-- `OperationalEvent` from `OperationalEvent.h`. -/
structure OperationalEvent where
  id : Long
  toTrigger : Bool
  timestamp : ℚ
deriving DecidableEq, Repr

/-- `VirtualOperation` from `VirtualOperation.h`. -/
structure VirtualOperation where
  id : Long
  timestamp : ℚ
  count : Int
deriving DecidableEq, Repr

/-- Key-ascending insert-or-assign, modelling `std::map::operator[]` on
`map<long, VirtualOperation>`. -/
def insertVO (k : Long) (v : VirtualOperation) :
    List (Long × VirtualOperation) → List (Long × VirtualOperation)
  | [] => [(k, v)]
  | (k', v') :: t =>
      if k < k' then (k, v) :: (k', v') :: t
      else if k = k' then (k, v) :: t
      else (k', v') :: insertVO k v t

/-- `topMap.erase(key)` for every key of the migrated map
(OperationGenerator.cc lines 122-124). -/
def eraseKeysVO (keys : List Long)
    (l : List (Long × VirtualOperation)) : List (Long × VirtualOperation) :=
  l.filter (fun p => !(keys.contains p.1))

/-- One pass of the causal-partitioning loop over the top-of-stack map
(OperationGenerator.cc lines 85-117): for each entry, every other entry
that is a strict cause (`isReachable(id', id) ∧ ¬isReachable(id, id')`)
with an equal counter is migrated into the new map (and `hasCause` set);
an entry with no such cause is itself copied into the new map.  The
reachability oracle `reach` is `sg.isReachable` and `counter` reads
`se->getInstance(·).counter`. -/
def scanTop (reach : Long → Long → Bool) (counter : Long → Int)
    (topMap : List (Long × VirtualOperation)) :
    List (Long × VirtualOperation) × Bool :=
  topMap.foldl (fun (acc : List (Long × VirtualOperation) × Bool) p =>
    let causes := topMap.filter (fun q =>
      q.1 ≠ p.1 && reach q.1 p.1 && !(reach p.1 q.1) &&
        counter q.1 == counter p.1)
    let newMap := causes.foldl (fun mm q => insertVO q.1 q.2 mm) acc.1
    if causes.isEmpty then (insertVO p.1 p.2 newMap, acc.2)
    else (newMap, true)) ([], false)

/-- The `do … while(hasCause)` stack loop (OperationGenerator.cc lines
84-129): while migration occurred, push the migrated map, erase its keys
from the previous top, and continue on the new top.  `fuel` bounds the
number of iterations; the concrete executions below use enough fuel to
reproduce the source's trace. -/
def sortLoop (reach : Long → Long → Bool) (counter : Long → Int) :
    Nat → List (List (Long × VirtualOperation)) →
      List (List (Long × VirtualOperation))
  | 0, st => st
  | _ + 1, [] => []
  | fuel + 1, top :: rest =>
      let res := scanTop reach counter top
      if res.2 then
        sortLoop reach counter fuel
          (res.1 :: eraseKeysVO (res.1.map (·.1)) top :: rest)
      else top :: rest

/-- `OperationGenerator::generateOperations` (OperationGenerator.cc
lines 40-147) restricted to its return value: merge the head event of
every non-empty per-id queue (the queues iterate in ascending key
order), promote each to a `VirtualOperation` carrying the instance's
current counter, run the causal partitioning loop, and pop the stack
(deepest causes first) into the returned queue of vectors.
`cycleTriggered` is stored but unused (the TODO at lines 65-67). -/
def generateOperations (eventQueues : List (Long × List OperationalEvent))
    (reach : Long → Long → Bool) (counter : Long → Int)
    (cycleTriggered : List Long) : List (List VirtualOperation) :=
  let _ := cycleTriggered
  let mergedEvents := eventQueues.filterMap
    (fun p => p.2.head?.map (fun e => (p.1, e)))
  let voMap := mergedEvents.map (fun p =>
    (p.1, { id := p.1, timestamp := p.2.timestamp,
            count := counter p.1 : VirtualOperation }))
  let stack := sortLoop reach counter (voMap.length + 1) [voMap]
  stack.map (fun mm => mm.map (·.2))

/-- C8: if `X` is a strict cause of `Y` (`reach X Y` and not `reach Y X`),
exactly one event is cached for each, and the two instances' counters
are equal, then `generateOperations({})` returns exactly two vectors in
order `[[X], [Y]]` — the cause's operation first, the effect's second —
each carrying its event's timestamp and its instance's counter.  (The
cached queues are listed in ascending key order, as `std::map` iterates
them.) -/
theorem generateOperations_strict_cause_partition
    (X Y : Long) (eX eY : OperationalEvent)
    (reach : Long → Long → Bool) (counter : Long → Int)
    (hne : X ≠ Y) (hxy : reach X Y = true) (hyx : reach Y X = false)
    (hcnt : counter X = counter Y) :
    generateOperations
      (if X < Y then [(X, [eX]), (Y, [eY])] else [(Y, [eY]), (X, [eX])])
      reach counter [] =
      [[{ id := X, timestamp := eX.timestamp, count := counter X }],
       [{ id := Y, timestamp := eY.timestamp, count := counter Y }]] := by
  have hne' : Y ≠ X := hne.symm
  rcases lt_or_gt_of_ne hne with hlt | hgt
  · have hnlt : ¬ (Y < X) := not_lt.mpr (le_of_lt hlt)
    rw [if_pos hlt]
    simp [generateOperations, sortLoop, scanTop, insertVO, eraseKeysVO,
      hxy, hyx, hcnt, hne, hne', hlt, hnlt]
  · have hnlt : ¬ (X < Y) := not_lt.mpr (le_of_lt hgt)
    have hlt2 : Y < X := hgt
    rw [if_neg hnlt]
    simp [generateOperations, sortLoop, scanTop, insertVO, eraseKeysVO,
      hxy, hyx, hcnt, hne, hne', hlt2, hnlt]

/-- Witness for C8 at the concrete scenario S5: ids 1 (cause) and 2
(effect), both cached at `t = 1` with equal counters. -/
theorem generateOperations_strict_cause_partition_witness :
    generateOperations
      [(1, [{ id := 1, toTrigger := true, timestamp := 1 }]),
       (2, [{ id := 2, toTrigger := true, timestamp := 1 }])]
      (fun a b => a == 1 && b == 2) (fun _ => 0) [] =
      [[{ id := 1, timestamp := 1, count := 0 }],
       [{ id := 2, timestamp := 1, count := 0 }]] := by
  have h := generateOperations_strict_cause_partition 1 2
    { id := 1, toTrigger := true, timestamp := 1 }
    { id := 2, toTrigger := true, timestamp := 1 }
    (fun a b => a == 1 && b == 2) (fun _ => 0)
    (by decide) (by decide) (by decide) rfl
  simpa using h

end DTS

